import Mathlib

/-!
# Verification of dxlib-v3 datastore lifecycle management

Shallow embedding of the Redis manager/handle family
(`redis` package, `DXRedisManager` / `DXRedis`) and of the SQL database
manager family (`databases` package, `DXDatabaseManager`), together with
proofs of the lifecycle and data-operation properties.

Modelling conventions:
* Go JSON values (`utils.JSON` = `map[string]interface{}` entries) are the
  inductive `JValue` / `JArray` / `JObject` below; association order stands
  in for Go map iteration order (claims here do not depend on order).
* Go errors are explicit result constructors; a call into the logging
  subsystem that terminates the process (`PanicAndCreateErrorf`, `Fatalf`)
  is the `Res.fatal` outcome; a nil-pointer dereference (a Go runtime
  panic) is `Res.nilPanic`.
* `encoding/json` marshalling is modelled by an executable token encoder
  with a fuel-indexed decoder, proved to round-trip.
* External effects (network ping success, connection close success, the
  contents of the remote store) are passed as explicit oracle parameters.
-/

mutual

/-- A JSON value as produced by parsing a configuration blob or a stored
payload (`interface{}` holding a JSON-decodable value in the Go source). -/
inductive JValue : Type where
  | jnull : JValue
  | jbool (b : Bool) : JValue
  | jnum (n : Int) : JValue
  | jstr (s : String) : JValue
  | jarr (a : JArray) : JValue
  | jobj (o : JObject) : JValue
deriving DecidableEq

/-- A JSON array of values. -/
inductive JArray : Type where
  | anil : JArray
  | acons (v : JValue) (tl : JArray) : JArray
deriving DecidableEq

/-- A JSON object: a finite association of string keys to values
(`utils.JSON`, Go `map[string]interface{}`). -/
inductive JObject : Type where
  | onil : JObject
  | ocons (k : String) (v : JValue) (tl : JObject) : JObject
deriving DecidableEq

end

/-- Look a key up in a JSON object (`m[key]` on a Go map; keys are unique
in a decoded Go map, the first binding wins here). -/
def jlookup : JObject → String → Option JValue
  | .onil, _ => none
  | .ocons k v tl, key => if k == key then some v else jlookup tl key

/-- Go two-value type assertion `v.(utils.JSON)`. -/
def asJSON : JValue → Option JObject
  | .jobj o => some o
  | _ => none

/-- Go two-value type assertion `v.(bool)`. -/
def asBool : JValue → Option Bool
  | .jbool b => some b
  | _ => none

/-- Go two-value type assertion `v.(string)`. -/
def asString : JValue → Option String
  | .jstr s => some s
  | _ => none

/-- A token of the serialized byte encoding of a JSON value. The Go source
serializes with `encoding/json` (`json.Marshal`); the byte string is
modelled as its token stream. -/
inductive JTok : Type where
  | tnull : JTok
  | tbool (b : Bool) : JTok
  | tnum (n : Int) : JTok
  | tstr (s : String) : JTok
  | arrS : JTok
  | arrE : JTok
  | objS : JTok
  | objE : JTok
  | tkey (k : String) : JTok
deriving DecidableEq

mutual

/-- Serialize a JSON value to its token stream (`json.Marshal`). -/
def encVal : JValue → List JTok
  | .jnull => [.tnull]
  | .jbool b => [.tbool b]
  | .jnum n => [.tnum n]
  | .jstr s => [.tstr s]
  | .jarr a => .arrS :: encArr a
  | .jobj o => .objS :: encObj o

/-- Serialize the elements of a JSON array, closing with `arrE`. -/
def encArr : JArray → List JTok
  | .anil => [.arrE]
  | .acons v tl => encVal v ++ encArr tl

/-- Serialize the fields of a JSON object, closing with `objE`. -/
def encObj : JObject → List JTok
  | .onil => [.objE]
  | .ocons k v tl => .tkey k :: (encVal v ++ encObj tl)

end

mutual

/-- Fuel-indexed deserializer for one JSON value (`json.Unmarshal`);
returns the value and the unconsumed remainder of the stream. -/
def decVal : Nat → List JTok → Option (JValue × List JTok)
  | 0, _ => none
  | _ + 1, [] => none
  | f + 1, t :: r =>
    match t with
    | .tnull => some (.jnull, r)
    | .tbool b => some (.jbool b, r)
    | .tnum n => some (.jnum n, r)
    | .tstr s => some (.jstr s, r)
    | .arrS =>
      match decArr f r with
      | some (a, r1) => some (.jarr a, r1)
      | none => none
    | .objS =>
      match decObj f r with
      | some (o, r1) => some (.jobj o, r1)
      | none => none
    | _ => none

/-- Fuel-indexed deserializer for array elements up to `arrE`. -/
def decArr : Nat → List JTok → Option (JArray × List JTok)
  | 0, _ => none
  | _ + 1, [] => none
  | f + 1, t :: r =>
    if t = JTok.arrE then some (.anil, r)
    else
      match decVal f (t :: r) with
      | some (v, r1) =>
        match decArr f r1 with
        | some (tl, r2) => some (.acons v tl, r2)
        | none => none
      | none => none

/-- Fuel-indexed deserializer for object fields up to `objE`. -/
def decObj : Nat → List JTok → Option (JObject × List JTok)
  | 0, _ => none
  | _ + 1, [] => none
  | f + 1, t :: r =>
    match t with
    | .objE => some (.onil, r)
    | .tkey k =>
      match decVal f r with
      | some (v, r1) =>
        match decObj f r1 with
        | some (tl, r2) => some (.ocons k v tl, r2)
        | none => none
      | none => none
    | _ => none

end

mutual

/-- Recursion depth needed to decode the encoding of a value. -/
def fuelVal : JValue → Nat
  | .jarr a => 1 + fuelArr a
  | .jobj o => 1 + fuelObj o
  | _ => 1

/-- Recursion depth needed to decode the encoding of array elements. -/
def fuelArr : JArray → Nat
  | .anil => 1
  | .acons v tl => 1 + max (fuelVal v) (fuelArr tl)

/-- Recursion depth needed to decode the encoding of object fields. -/
def fuelObj : JObject → Nat
  | .onil => 1
  | .ocons _ v tl => 1 + max (fuelVal v) (fuelObj tl)

end

theorem encVal_length_pos (v : JValue) : 0 < (encVal v).length := by
  cases v <;> simp [encVal]

theorem encArr_length_pos (a : JArray) : 0 < (encArr a).length := by
  cases a with
  | anil => simp [encArr]
  | acons v tl =>
    have := encVal_length_pos v
    simp [encArr]; omega

theorem encObj_length_pos (o : JObject) : 0 < (encObj o).length := by
  cases o <;> simp [encObj]

mutual

theorem fuelVal_le_len (v : JValue) : fuelVal v ≤ (encVal v).length := by
  cases v with
  | jnull => simp [fuelVal, encVal]
  | jbool b => simp [fuelVal, encVal]
  | jnum n => simp [fuelVal, encVal]
  | jstr s => simp [fuelVal, encVal]
  | jarr a =>
    have h := fuelArr_le_len a
    simp [fuelVal, encVal]; omega
  | jobj o =>
    have h := fuelObj_le_len o
    simp [fuelVal, encVal]; omega

theorem fuelArr_le_len (a : JArray) : fuelArr a ≤ (encArr a).length := by
  cases a with
  | anil => simp [fuelArr, encArr]
  | acons v tl =>
    have h1 := fuelVal_le_len v
    have h2 := fuelArr_le_len tl
    have p1 := encVal_length_pos v
    have p2 := encArr_length_pos tl
    simp [fuelArr, encArr]; omega

theorem fuelObj_le_len (o : JObject) : fuelObj o ≤ (encObj o).length := by
  cases o with
  | onil => simp [fuelObj, encObj]
  | ocons k v tl =>
    have h1 := fuelVal_le_len v
    have h2 := fuelObj_le_len tl
    simp [fuelObj, encObj]; omega

end

/-- The decoder on the encoding of an array element never sees the closing
token first: encoded values start with a value-opening token. -/
theorem decArr_enc_cons (f : Nat) (v : JValue) (r : List JTok) :
    decArr (f + 1) (encVal v ++ r) =
      match decVal f (encVal v ++ r) with
      | some (w, r1) =>
        match decArr f r1 with
        | some (tl, r2) => some (JArray.acons w tl, r2)
        | none => none
      | none => none := by
  cases v <;> simp [encVal, decArr]

mutual

theorem decVal_encVal (v : JValue) (rest : List JTok) (f : Nat)
    (hf : fuelVal v ≤ f) : decVal f (encVal v ++ rest) = some (v, rest) := by
  cases v with
  | jnull =>
    cases f with
    | zero => simp [fuelVal] at hf
    | succ f => simp [encVal, decVal]
  | jbool b =>
    cases f with
    | zero => simp [fuelVal] at hf
    | succ f => simp [encVal, decVal]
  | jnum n =>
    cases f with
    | zero => simp [fuelVal] at hf
    | succ f => simp [encVal, decVal]
  | jstr s =>
    cases f with
    | zero => simp [fuelVal] at hf
    | succ f => simp [encVal, decVal]
  | jarr a =>
    cases f with
    | zero => simp [fuelVal] at hf
    | succ f =>
      have ha : fuelArr a ≤ f := by simp [fuelVal] at hf; omega
      simp [encVal, decVal, decArr_encArr a rest f ha]
  | jobj o =>
    cases f with
    | zero => simp [fuelVal] at hf
    | succ f =>
      have ho : fuelObj o ≤ f := by simp [fuelVal] at hf; omega
      simp [encVal, decVal, decObj_encObj o rest f ho]

theorem decArr_encArr (a : JArray) (rest : List JTok) (f : Nat)
    (hf : fuelArr a ≤ f) : decArr f (encArr a ++ rest) = some (a, rest) := by
  cases a with
  | anil =>
    cases f with
    | zero => simp [fuelArr] at hf
    | succ f => simp [encArr, decArr]
  | acons v tl =>
    cases f with
    | zero => simp [fuelArr] at hf
    | succ f =>
      have hv : fuelVal v ≤ f := by simp [fuelArr] at hf; omega
      have ht : fuelArr tl ≤ f := by simp [fuelArr] at hf; omega
      rw [encArr, List.append_assoc, decArr_enc_cons,
        decVal_encVal v (encArr tl ++ rest) f hv]
      simp [decArr_encArr tl rest f ht]

theorem decObj_encObj (o : JObject) (rest : List JTok) (f : Nat)
    (hf : fuelObj o ≤ f) : decObj f (encObj o ++ rest) = some (o, rest) := by
  cases o with
  | onil =>
    cases f with
    | zero => simp [fuelObj] at hf
    | succ f => simp [encObj, decObj]
  | ocons k v tl =>
    cases f with
    | zero => simp [fuelObj] at hf
    | succ f =>
      have hv : fuelVal v ≤ f := by simp [fuelObj] at hf; omega
      have ht : fuelObj tl ≤ f := by simp [fuelObj] at hf; omega
      rw [encObj]
      simp [decObj, List.append_assoc,
        decVal_encVal v (encObj tl ++ rest) f hv,
        decObj_encObj tl rest f ht]

end

/-- Serialize a structured (object) value to bytes (`json.Marshal` applied
to a `utils.JSON` map). -/
def marshal (o : JObject) : List JTok := encVal (.jobj o)

/-- Deserialize bytes back to a JSON value (`json.Unmarshal`); fails on
malformed or trailing input. -/
def unmarshal (toks : List JTok) : Option JValue :=
  match decVal toks.length toks with
  | some (v, []) => some v
  | _ => none

/-- Deserialize into a `utils.JSON` target: the decoded value must be an
object. -/
def unmarshalJSON (toks : List JTok) : Option JObject :=
  match unmarshal toks with
  | some (.jobj o) => some o
  | _ => none

theorem unmarshal_marshal (o : JObject) :
    unmarshal (marshal o) = some (JValue.jobj o) := by
  have h := decVal_encVal (.jobj o) [] (marshal o).length
    (by simpa [marshal] using fuelVal_le_len (.jobj o))
  rw [List.append_nil] at h
  simp [unmarshal, marshal] at h ⊢
  rw [h]

theorem unmarshalJSON_marshal (o : JObject) :
    unmarshalJSON (marshal o) = some o := by
  simp [unmarshalJSON, unmarshal_marshal]

/-- Outcome of an operation: success, a returned (recoverable) error value,
a fatal logging call that terminates the process (`PanicAndCreateErrorf`,
`Fatalf`), or a Go runtime panic from dereferencing a nil pointer. -/
inductive Res : Type where
  | ok : Res
  | errRes (msg : String) : Res
  | fatal (msg : String) : Res
  | nilPanic : Res
deriving DecidableEq

/-- Observable side effects used to state invocation properties:
configuration field reads, connection building, liveness pings, and the
manager-level apply/connect calls on a named handle. -/
inductive Ev : Type where
  | readField (field : String) : Ev
  | build : Ev
  | pingEv : Ev
  | applyEv (nameId : String) : Ev
  | connectEv (nameId : String) : Ev
deriving DecidableEq

/-- `redis.RingOptions` as filled in by `DXRedis.Connect`. -/
structure RingOptions where
  Addrs : List (String × String)
  DB : Int
  Username : String
  Password : String
deriving DecidableEq

/-- The live client object (`*redis.Ring`); carries the options it was built
with and the remote key/byte-value store it talks to. -/
structure RedisConn where
  options : RingOptions
  store : List (String × List JTok)
deriving DecidableEq

/-- Key lookup in the remote store; `none` is the library's key-not-found
(`redis.Nil`). -/
def storeLookup : List (String × List JTok) → String → Option (List JTok)
  | [], _ => none
  | (k, v) :: tl, key => if k == key then some v else storeLookup tl key

/-- Write a key (SET): the new binding shadows any previous one. -/
def storeInsert (s : List (String × List JTok)) (key : String)
    (v : List JTok) : List (String × List JTok) :=
  (key, v) :: s

/-- Remove a key (DEL). -/
def storeRemove (s : List (String × List JTok)) (key : String) :
    List (String × List JTok) :=
  s.filter (fun kv => kv.1 != key)

/-- The `DXRedis` handle. `Owner` and `Context` are omitted (the manager
back-pointer and the Go context play no role in the verified properties);
`Connection` is the possibly-nil `*redis.Ring`. -/
structure DXRedis where
  NameId : String
  IsConfigured : Bool
  Address : String
  UserName : String
  HasUserName : Bool
  Password : String
  HasPassword : Bool
  DatabaseIndex : Int
  IsConnectAtStart : Bool
  MustConnected : Bool
  Connection : Option RedisConn
  Connected : Bool
deriving DecidableEq

/-- One entry of the configuration registry
(`dxlibv3Configuration.Manager.Configurations`): a parsed configuration
tree. -/
structure DXConfiguration where
  Data : JObject
deriving DecidableEq

/-- The configuration registry, keyed by section name. -/
def cfglookup : List (String × DXConfiguration) → String → Option DXConfiguration
  | [], _ => none
  | (k, v) :: tl, key => if k == key then some v else cfglookup tl key

/-- Modelled from the spec: `json2.GetInt` (`dxlib/v3/utils/json`) is not
part of the provided source. Per the spec, `database_index` is an optional
integer field and optional fields are read permissively: absence disables
the feature (the index stays 0, no error); a present non-integer value is an
error (the caller's message says to make sure it was an integer, not a
string). -/
def json2GetInt (o : JObject) (key : String) : Int × Option String :=
  match jlookup o key with
  | none => (0, none)
  | some (.jnum n) => (n, none)
  | some _ => (0, some "value is not an integer")

/-- `DXRedis.ApplyFromConfiguration`: returns the updated handle, the
outcome, and the configuration reads performed. A Go two-value type
assertion such as the one assigning `r.Address` stores the zero value when
the assertion fails, so the failed-address branch still zeroes `Address`. -/
def DXRedis.ApplyFromConfiguration (cfgs : List (String × DXConfiguration))
    (r : DXRedis) : DXRedis × Res × List Ev :=
  if r.IsConfigured then (r, .ok, [])
  else
    match cfglookup cfgs "redis" with
    | none => (r, .fatal "Redises configuration not found", [])
    | some configurationData =>
      match (jlookup configurationData.Data r.NameId).bind asJSON with
      | none =>
        if r.MustConnected then
          (r, .fatal ("Redis " ++ r.NameId ++ " configuration not found"),
            [.readField r.NameId])
        else
          (r, .errRes ("Manager is unusable, Redis " ++ r.NameId ++
            " configuration not found"), [.readField r.NameId])
      | some redisConfiguration =>
        let addrOpt := (jlookup redisConfiguration "address").bind asString
        let r1 := { r with Address := addrOpt.getD "" }
        let evs := [Ev.readField r.NameId, Ev.readField "address"]
        match addrOpt with
        | none =>
          if r.MustConnected then
            (r1, .fatal ("Mandatory address field in Redis " ++ r.NameId ++
              " configuration not exist"), evs)
          else
            (r1, .errRes ("configuration is unusable, mandatory address field in Redis "
              ++ r.NameId ++ " configuration not exist"), evs)
        | some _ =>
          let unOpt := (jlookup redisConfiguration "user_name").bind asString
          let r2 := { r1 with UserName := unOpt.getD "", HasUserName := unOpt.isSome }
          let pwOpt := (jlookup redisConfiguration "password").bind asString
          let r3 := { r2 with Password := pwOpt.getD "", HasPassword := pwOpt.isSome }
          let gi := json2GetInt redisConfiguration "database_index"
          let r4 := { r3 with DatabaseIndex := gi.1 }
          let evs1 := evs ++ [Ev.readField "user_name", Ev.readField "password",
            Ev.readField "database_index"]
          match gi.2 with
          | some _ =>
            if r.MustConnected then
              (r4, .fatal ("Mandatory database_index field in Redis " ++ r.NameId ++
                " configuration not exist, check configuration and make sure it was integer not a string"),
                evs1)
            else
              (r4, .errRes ("configuration is unusable, mandatory address field in Redis "
                ++ r.NameId ++ " configuration not exist"), evs1)
          | none => ({ r4 with IsConfigured := true }, .ok, evs1)

/-- `DXRedis.Connect`. `pingOk` is the external liveness-check outcome and
`extStore` the content of the remote store the new client talks to. A ping
failure with `MustConnected` set is `log.Log.Fatalf`: process-terminating,
no state transition (the `return nil` after it is dead code). -/
def DXRedis.Connect (cfgs : List (String × DXConfiguration)) (pingOk : Bool)
    (extStore : List (String × List JTok)) (r : DXRedis) :
    DXRedis × Res × List Ev :=
  if r.Connected then (r, .ok, [])
  else
    match r.ApplyFromConfiguration cfgs with
    | (r1, .ok, evs) =>
      let redisRingOptions : RingOptions :=
        { Addrs := [("shard1", r1.Address)]
          DB := r1.DatabaseIndex
          Username := if r1.HasUserName then r1.UserName else ""
          Password := if r1.HasPassword then r1.Password else "" }
      let connection : RedisConn := { options := redisRingOptions, store := extStore }
      let evs1 := evs ++ [Ev.build, Ev.pingEv]
      if pingOk then
        ({ r1 with Connection := some connection, Connected := true }, .ok, evs1)
      else
        if r1.MustConnected then
          (r1, .fatal ("Cannot connect to Redis " ++ r1.NameId), evs1)
        else
          (r1, .errRes ("Cannot connect to Redis " ++ r1.NameId), evs1)
    | (r1, e, evs) => (r1, e, evs)

/-- `DXRedis.Disconnect`. `closeOk` is the outcome of closing the underlying
connection. -/
def DXRedis.Disconnect (closeOk : Bool) (r : DXRedis) : DXRedis × Res :=
  if r.Connected then
    match r.Connection with
    | none => (r, .nilPanic)
    | some _ =>
      if closeOk then ({ r with Connection := none, Connected := false }, .ok)
      else (r, .errRes ("Disconnecting to Redis " ++ r.NameId ++ " error"))
  else (r, .ok)

/-- `DXRedis.Ping`: no guard on `Connection`; a nil connection is
dereferenced. -/
def DXRedis.Ping (pingOk : Bool) (r : DXRedis) : Res :=
  match r.Connection with
  | none => .nilPanic
  | some _ => if pingOk then .ok else .errRes "ping failed"

/-- `DXRedis.Set`: marshals the value and writes it. `json.Marshal` of a
`utils.JSON` value is total in this model (cyclic or non-JSON values are not
representable), so the source's marshal-error branch is unreachable; the
expiration duration is accepted but expiry itself is external behavior. -/
def DXRedis.Set (r : DXRedis) (key : String) (value : JObject)
    (expirationDuration : Nat) : Option RedisConn × Res :=
  let valueAsBytes := marshal value
  match r.Connection with
  | none => (none, .nilPanic)
  | some c =>
    let _ := expirationDuration
    (some { c with store := storeInsert c.store key valueAsBytes }, .ok)

/-- `DXRedis.Get`: key-not-found (`redis.Nil`) is not an error — it returns
a nil value and no error. -/
def DXRedis.Get (r : DXRedis) (key : String) : Option JObject × Res :=
  match r.Connection with
  | none => (none, .nilPanic)
  | some c =>
    match storeLookup c.store key with
    | none => (none, .ok)
    | some valueAsBytes =>
      match unmarshalJSON valueAsBytes with
      | some value => (some value, .ok)
      | none => (none, .errRes ("Cannot unmarshall from bytes in Redis " ++ r.NameId))

/-- `DXRedis.MustGet`: identical to `Get` except key-not-found is reported
as an error. -/
def DXRedis.MustGet (r : DXRedis) (key : String) : Option JObject × Res :=
  match r.Connection with
  | none => (none, .nilPanic)
  | some c =>
    match storeLookup c.store key with
    | none => (none, .errRes ("Cannot find keyin Redis " ++ r.NameId))
    | some valueAsBytes =>
      match unmarshalJSON valueAsBytes with
      | some value => (some value, .ok)
      | none => (none, .errRes ("Cannot unmarshall from bytes in Redis " ++ r.NameId))

/-- `DXRedis.Delete`. -/
def DXRedis.Delete (r : DXRedis) (key : String) : Option RedisConn × Res :=
  match r.Connection with
  | none => (none, .nilPanic)
  | some c => (some { c with store := storeRemove c.store key }, .ok)

/-- The process-wide Redis registry (`DXRedisManager.Redises`); Go map
semantics: names are unique, iteration order is irrelevant to the verified
properties. -/
structure DXRedisManager where
  Redises : List DXRedis
deriving DecidableEq

/-- Registration with map-assignment overwrite semantics: an existing entry
with the same name is replaced. -/
def registerRedis (hs : List DXRedis) (r : DXRedis) : List DXRedis :=
  hs.filter (fun h => h.NameId != r.NameId) ++ [r]

/-- In Go the registry stores a pointer to the handle, so a handle mutated
after registration is the registered one; re-binding by name models that. -/
def rebindRedis (hs : List DXRedis) (r : DXRedis) : List DXRedis :=
  hs.map (fun h => if h.NameId == r.NameId then r else h)

/-- `DXRedisManager.NewRedis`: creates an unconfigured, disconnected handle
with the given policy flags and registers it. -/
def DXRedisManager.NewRedis (rs : DXRedisManager) (nameId : String)
    (isConnectAtStart mustConnected : Bool) : DXRedisManager × DXRedis :=
  let r : DXRedis :=
    { NameId := nameId
      IsConfigured := false
      Address := ""
      UserName := ""
      HasUserName := false
      Password := ""
      HasPassword := false
      DatabaseIndex := 0
      IsConnectAtStart := isConnectAtStart
      MustConnected := mustConnected
      Connection := none
      Connected := false }
  ({ Redises := registerRedis rs.Redises r }, r)

/-- The per-entry loop body of `DXRedisManager.LoadFromConfiguration`: each
entry must deserialize as a JSON record; `is_connect_at_start` and
`must_connected` default to false on absence or wrong type; the handle is
registered and its configuration applied; the loop aborts on the first
error. -/
def DXRedisManager.LoadEntries (cfgs : List (String × DXConfiguration))
    (rs : DXRedisManager) : JObject → DXRedisManager × Res
  | .onil => (rs, .ok)
  | .ocons k v tl =>
    match asJSON v with
    | none => (rs, .errRes ("Cannot read " ++ k ++ " as JSON"))
    | some d =>
      let isConnectAtStart := ((jlookup d "is_connect_at_start").bind asBool).getD false
      let mustConnected := ((jlookup d "must_connected").bind asBool).getD false
      let p := rs.NewRedis k isConnectAtStart mustConnected
      let q := p.2.ApplyFromConfiguration cfgs
      let rs2 : DXRedisManager := { Redises := rebindRedis p.1.Redises q.1 }
      match q.2.1 with
      | .ok => DXRedisManager.LoadEntries cfgs rs2 tl
      | e => (rs2, e)

/-- `DXRedisManager.LoadFromConfiguration`: fails with
`CONFIGURATION_NOT_FOUND` when the named section is absent from the
configuration registry. -/
def DXRedisManager.LoadFromConfiguration (cfgs : List (String × DXConfiguration))
    (rs : DXRedisManager) (configurationNameId : String) : DXRedisManager × Res :=
  match cfglookup cfgs configurationNameId with
  | none => (rs, .errRes ("CONFIGURATION_NOT_FOUND:" ++ configurationNameId))
  | some configuration => DXRedisManager.LoadEntries cfgs rs configuration.Data

/-- The loop of `DXRedisManager.ConnectAllAtStart`: connects exactly the
handles whose `IsConnectAtStart` flag is true, aborting on the first
error. -/
def DXRedisManager.ConnectAllAtStartLoop (cfgs : List (String × DXConfiguration))
    (pingOk : Bool) (extStore : List (String × List JTok)) :
    List DXRedis → List DXRedis × Res × List Ev
  | [] => ([], .ok, [])
  | r :: tl =>
    if r.IsConnectAtStart then
      match r.Connect cfgs pingOk extStore with
      | (r1, .ok, cevs) =>
        let rest := DXRedisManager.ConnectAllAtStartLoop cfgs pingOk extStore tl
        (r1 :: rest.1, rest.2.1, (Ev.connectEv r.NameId :: cevs) ++ rest.2.2)
      | (r1, e, cevs) => (r1 :: tl, e, Ev.connectEv r.NameId :: cevs)
    else
      let rest := DXRedisManager.ConnectAllAtStartLoop cfgs pingOk extStore tl
      (r :: rest.1, rest.2.1, rest.2.2)

/-- `DXRedisManager.ConnectAllAtStart`. -/
def DXRedisManager.ConnectAllAtStart (cfgs : List (String × DXConfiguration))
    (pingOk : Bool) (extStore : List (String × List JTok)) (rs : DXRedisManager) :
    DXRedisManager × Res × List Ev :=
  let p := DXRedisManager.ConnectAllAtStartLoop cfgs pingOk extStore rs.Redises
  ({ Redises := p.1 }, p.2.1, p.2.2)

/-- The `DXDatabase` handle. The full struct in `dxlib/v3/databases` carries
more fields; these are the ones the manager logic in the provided source
reads or writes. -/
structure DXDatabase where
  NameId : String
  IsConfigured : Bool
  IsConnectAtStart : Bool
  MustConnected : Bool
  Connected : Bool
deriving DecidableEq

/-- Modelled from the spec: `DXDatabase.ApplyFromConfiguration` — the SQL
handle's own methods live in files of `dxlib/v3/databases` that are not part
of the provided source (only the manager is). Per the spec: no-op if already
Configured; looks up this handle's named sub-record in the named section; a
missing record, or a missing required `address` field, is fatal-class if
`mustConnected` is true and a recoverable error otherwise; on success the
handle transitions to Configured. -/
def DXDatabase.ApplyFromConfiguration (cfgs : List (String × DXConfiguration))
    (configurationNameId : String) (d : DXDatabase) : DXDatabase × Res :=
  if d.IsConfigured then (d, .ok)
  else
    match cfglookup cfgs configurationNameId with
    | none => (d, .fatal "Databases configuration not found")
    | some configuration =>
      match (jlookup configuration.Data d.NameId).bind asJSON with
      | none =>
        if d.MustConnected then
          (d, .fatal ("Database " ++ d.NameId ++ " configuration not found"))
        else
          (d, .errRes ("Database " ++ d.NameId ++ " configuration not found"))
      | some record =>
        match (jlookup record "address").bind asString with
        | none =>
          if d.MustConnected then
            (d, .fatal ("Mandatory address field in database " ++ d.NameId ++
              " configuration not exist"))
          else
            (d, .errRes ("Mandatory address field in database " ++ d.NameId ++
              " configuration not exist"))
        | some _ => ({ d with IsConfigured := true }, .ok)

/-- Modelled from the spec: `DXDatabase.Connect` — no-op if already
Connected; ensures Configured first; builds a connection and pings it; a
ping failure is fatal-class if `mustConnected` and a recoverable error
otherwise; on success sets Connected. -/
def DXDatabase.Connect (cfgs : List (String × DXConfiguration))
    (configurationNameId : String) (pingOk : Bool) (d : DXDatabase) :
    DXDatabase × Res :=
  if d.Connected then (d, .ok)
  else
    match d.ApplyFromConfiguration cfgs configurationNameId with
    | (d1, .ok) =>
      if pingOk then ({ d1 with Connected := true }, .ok)
      else
        if d1.MustConnected then
          (d1, .fatal ("Cannot connect to database " ++ d1.NameId))
        else
          (d1, .errRes ("Cannot connect to database " ++ d1.NameId))
    | (d1, e) => (d1, e)

/-- The process-wide SQL database registry (`DXDatabaseManager.Databases`;
the `Scripts` registry plays no role in the verified properties). -/
structure DXDatabaseManager where
  Databases : List DXDatabase
deriving DecidableEq

/-- `DXDatabaseManager.NewDatabase`. -/
def DXDatabaseManager.NewDatabase (dm : DXDatabaseManager) (nameId : String)
    (isConnectAtStart mustBeConnected : Bool) : DXDatabaseManager × DXDatabase :=
  let d : DXDatabase :=
    { NameId := nameId
      IsConfigured := false
      IsConnectAtStart := isConnectAtStart
      MustConnected := mustBeConnected
      Connected := false }
  ({ Databases := dm.Databases.filter (fun h => h.NameId != nameId) ++ [d] }, d)

/-- The per-entry loop body of `DXDatabaseManager.LoadFromConfiguration`. -/
def DXDatabaseManager.LoadEntries (cfgs : List (String × DXConfiguration))
    (configurationNameId : String) (dm : DXDatabaseManager) :
    JObject → DXDatabaseManager × Res
  | .onil => (dm, .ok)
  | .ocons k v tl =>
    match asJSON v with
    | none => (dm, .errRes ("Cannot read " ++ k ++ " as JSON"))
    | some d =>
      let isConnectAtStart := ((jlookup d "is_connect_at_start").bind asBool).getD false
      let mustConnected := ((jlookup d "must_connected").bind asBool).getD false
      let p := dm.NewDatabase k isConnectAtStart mustConnected
      let q := p.2.ApplyFromConfiguration cfgs configurationNameId
      let dm2 : DXDatabaseManager :=
        { Databases := p.1.Databases.map (fun h => if h.NameId == q.1.NameId then q.1 else h) }
      match q.2 with
      | .ok => DXDatabaseManager.LoadEntries cfgs configurationNameId dm2 tl
      | e => (dm2, e)

/-- `DXDatabaseManager.LoadFromConfiguration`: the source performs NO
presence check on `configurations.Manager.Configurations[configurationNameId]`;
when the section is absent, iterating `*configuration.Data` dereferences a
nil pointer — a Go runtime panic, not a returned error. -/
def DXDatabaseManager.LoadFromConfiguration (cfgs : List (String × DXConfiguration))
    (dm : DXDatabaseManager) (configurationNameId : String) :
    DXDatabaseManager × Res :=
  match cfglookup cfgs configurationNameId with
  | none => (dm, .nilPanic)
  | some configuration =>
    DXDatabaseManager.LoadEntries cfgs configurationNameId dm configuration.Data

/-- The loop of `DXDatabaseManager.ConnectAllAtStart`: re-applies
configuration to EVERY handle, then connects exactly those with
`IsConnectAtStart` true; aborts on the first error (an apply error is
wrapped by the manager). -/
def DXDatabaseManager.ConnectAllAtStartLoop (cfgs : List (String × DXConfiguration))
    (configurationNameId : String) (pingOk : Bool) :
    List DXDatabase → List DXDatabase × Res × List Ev
  | [] => ([], .ok, [])
  | d :: tl =>
    match d.ApplyFromConfiguration cfgs configurationNameId with
    | (d1, .ok) =>
      if d1.IsConnectAtStart then
        match d1.Connect cfgs configurationNameId pingOk with
        | (d2, .ok) =>
          let rest := DXDatabaseManager.ConnectAllAtStartLoop cfgs configurationNameId pingOk tl
          (d2 :: rest.1, rest.2.1, Ev.applyEv d.NameId :: Ev.connectEv d.NameId :: rest.2.2)
        | (d2, e) => (d2 :: tl, e, [Ev.applyEv d.NameId, Ev.connectEv d.NameId])
      else
        let rest := DXDatabaseManager.ConnectAllAtStartLoop cfgs configurationNameId pingOk tl
        (d1 :: rest.1, rest.2.1, Ev.applyEv d.NameId :: rest.2.2)
    | (d1, .errRes _) =>
      (d1 :: tl, .errRes ("Cannot configure to database " ++ d.NameId ++ " to connect"),
        [Ev.applyEv d.NameId])
    | (d1, e) => (d1 :: tl, e, [Ev.applyEv d.NameId])

/-- `DXDatabaseManager.ConnectAllAtStart`. -/
def DXDatabaseManager.ConnectAllAtStart (cfgs : List (String × DXConfiguration))
    (configurationNameId : String) (pingOk : Bool) (dm : DXDatabaseManager) :
    DXDatabaseManager × Res × List Ev :=
  let p := DXDatabaseManager.ConnectAllAtStartLoop cfgs configurationNameId pingOk dm.Databases
  ({ Databases := p.1 }, p.2.1, p.2.2)

/-- A configuration record holding only the required `address` field. -/
def sampleRecord : JObject := .ocons "address" (.jstr "localhost:6379") .onil

/-- A `redis` configuration section with one entry named `main`. -/
def sampleSection : DXConfiguration :=
  { Data := .ocons "main" (.jobj sampleRecord) .onil }

/-- A registry holding the `redis` section above. -/
def sampleCfgs : List (String × DXConfiguration) := [("redis", sampleSection)]

/-- A freshly created handle named `main` (both policy flags false). -/
def sampleRedis : DXRedis :=
  { NameId := "main"
    IsConfigured := false
    Address := ""
    UserName := ""
    HasUserName := false
    Password := ""
    HasPassword := false
    DatabaseIndex := 0
    IsConnectAtStart := false
    MustConnected := false
    Connection := none
    Connected := false }

/-- `sampleRedis` after a successful `ApplyFromConfiguration`. -/
def sampleConfigured : DXRedis :=
  { sampleRedis with Address := "localhost:6379", IsConfigured := true }

/-- The ring options `Connect` builds from `sampleConfigured`. -/
def sampleOptions : RingOptions :=
  { Addrs := [("shard1", "localhost:6379")], DB := 0, Username := "", Password := "" }

/-- A live connection to an empty remote store. -/
def sampleConn : RedisConn := { options := sampleOptions, store := [] }

/-- `sampleConfigured` after a successful `Connect`. -/
def sampleConnected : DXRedis :=
  { sampleConfigured with Connection := some sampleConn, Connected := true }

/-- A structured value exercising nesting: an object holding a number and an
array of strings. -/
def sampleValue : JObject :=
  .ocons "x" (.jnum 1) (.ocons "l" (.jarr (.acons (.jstr "a") .anil)) .onil)

/-- A fresh SQL database handle named `main` (both policy flags false). -/
def sampleDb : DXDatabase :=
  { NameId := "main"
    IsConfigured := false
    IsConnectAtStart := false
    MustConnected := false
    Connected := false }

/-- A successful `ApplyFromConfiguration` leaves the handle configured. -/
theorem apply_ok_isConfigured (cfgs : List (String × DXConfiguration)) (r : DXRedis)
    (h : (r.ApplyFromConfiguration cfgs).2.1 = Res.ok) :
    (r.ApplyFromConfiguration cfgs).1.IsConfigured = true := by
  unfold DXRedis.ApplyFromConfiguration at h ⊢
  by_cases hc : r.IsConfigured
  · simp [hc]
  · simp only [hc, if_false] at h ⊢
    cases hcf : cfglookup cfgs "redis" with
    | none => simp [hcf] at h
    | some sec =>
      simp only [hcf] at h ⊢
      cases hj : (jlookup sec.Data r.NameId).bind asJSON with
      | none =>
        by_cases hm : r.MustConnected <;> simp [hj, hm] at h
      | some rec =>
        simp only [hj] at h ⊢
        cases ha : (jlookup rec "address").bind asString with
        | none =>
          by_cases hm : r.MustConnected <;> simp [ha, hm] at h
        | some a =>
          simp only [ha] at h ⊢
          cases hg : (json2GetInt rec "database_index").2 with
          | none => simp [hg]
          | some m =>
            by_cases hm : r.MustConnected <;> simp [hg, hm] at h

/-- C7: ApplyFromConfiguration is idempotent: once a call has succeeded (and
so set `IsConfigured`), a second call performs none of the configuration
field reads or writes — it returns the handle unchanged, an empty read
trace, and no error — so the configuration fields are read at most once over
any call sequence. -/
theorem claim_C7_apply_idempotent (cfgs : List (String × DXConfiguration))
    (r r1 : DXRedis) (evs : List Ev)
    (h : r.ApplyFromConfiguration cfgs = (r1, Res.ok, evs)) :
    r1.ApplyFromConfiguration cfgs = (r1, Res.ok, []) := by
  have h1 : (r.ApplyFromConfiguration cfgs).1.IsConfigured = true :=
    apply_ok_isConfigured cfgs r (by rw [h])
  rw [h] at h1
  simp only [Prod.fst] at h1
  simp [DXRedis.ApplyFromConfiguration, h1]

/-- Witness for C7 at a concrete handle and registry. -/
theorem claim_C7_witness :
    sampleConfigured.ApplyFromConfiguration sampleCfgs = (sampleConfigured, Res.ok, []) :=
  claim_C7_apply_idempotent sampleCfgs sampleRedis sampleConfigured
    [Ev.readField "main", Ev.readField "address", Ev.readField "user_name",
      Ev.readField "password", Ev.readField "database_index"] (by decide)

/-- C8: Connect is idempotent: on a handle whose `Connected` flag is true it
performs no configuration read, no connection build and no ping (empty
trace), leaves the handle unchanged and returns no error. -/
theorem claim_C8_connect_idempotent (cfgs : List (String × DXConfiguration))
    (pingOk : Bool) (extStore : List (String × List JTok)) (r : DXRedis)
    (h : r.Connected = true) :
    r.Connect cfgs pingOk extStore = (r, Res.ok, []) := by
  simp [DXRedis.Connect, h]

/-- Witness for C8 at a concrete connected handle. -/
theorem claim_C8_witness :
    sampleConnected.Connected = true ∧
    sampleConnected.Connect sampleCfgs true [] = (sampleConnected, Res.ok, []) :=
  ⟨rfl, claim_C8_connect_idempotent sampleCfgs true [] sampleConnected rfl⟩

/-- C5: on a connected handle, a failing close makes Disconnect return the
error with no state change at all (the connection reference is kept and
`Connected` stays true), while a successful close clears the reference and
resets `Connected`. -/
theorem claim_C5_disconnect (r : DXRedis) (c : RedisConn)
    (hc : r.Connected = true) (hcon : r.Connection = some c) :
    DXRedis.Disconnect false r =
      (r, Res.errRes ("Disconnecting to Redis " ++ r.NameId ++ " error")) ∧
    DXRedis.Disconnect true r =
      ({ r with Connection := none, Connected := false }, Res.ok) := by
  simp [DXRedis.Disconnect, hc, hcon]

/-- Witness for C5 at a concrete connected handle. -/
theorem claim_C5_witness :
    DXRedis.Disconnect false sampleConnected =
      (sampleConnected, Res.errRes ("Disconnecting to Redis " ++ sampleConnected.NameId ++ " error")) ∧
    DXRedis.Disconnect true sampleConnected =
      ({ sampleConnected with Connection := none, Connected := false }, Res.ok) :=
  claim_C5_disconnect sampleConnected sampleConn rfl rfl

/-- C6: on a connected handle, when the underlying store reports
key-not-found, `Get` returns an empty (nil) value and no error while
`MustGet` on the same key returns an error. -/
theorem claim_C6_get_vs_mustGet (r : DXRedis) (c : RedisConn) (key : String)
    (_hc : r.Connected = true) (hcon : r.Connection = some c)
    (habs : storeLookup c.store key = none) :
    r.Get key = (none, Res.ok) ∧
    r.MustGet key = (none, Res.errRes ("Cannot find keyin Redis " ++ r.NameId)) := by
  simp [DXRedis.Get, DXRedis.MustGet, hcon, habs]

/-- Witness for C6 at a concrete connected handle and absent key. -/
theorem claim_C6_witness :
    sampleConnected.Get "k" = (none, Res.ok) ∧
    sampleConnected.MustGet "k" =
      (none, Res.errRes ("Cannot find keyin Redis " ++ sampleConnected.NameId)) :=
  claim_C6_get_vs_mustGet sampleConnected sampleConn "k" rfl rfl rfl

/-- C10: Ping, Get, MustGet, Set and Delete perform no check of the
`Connected` flag or of the `Connection` reference: on any handle whose
connection is nil (Connect never succeeded) each of them dereferences the
nil connection — a runtime panic — instead of returning an error. -/
theorem claim_C10_no_connected_guard (r : DXRedis) (key : String)
    (value : JObject) (expirationDuration : Nat) (pingOk : Bool)
    (h : r.Connection = none) :
    DXRedis.Ping pingOk r = Res.nilPanic ∧
    (r.Set key value expirationDuration).2 = Res.nilPanic ∧
    (r.Get key).2 = Res.nilPanic ∧
    (r.MustGet key).2 = Res.nilPanic ∧
    (r.Delete key).2 = Res.nilPanic := by
  simp [DXRedis.Ping, DXRedis.Set, DXRedis.Get, DXRedis.MustGet, DXRedis.Delete, h]

/-- Witness for C10 at a concrete never-connected handle. -/
theorem claim_C10_witness :
    DXRedis.Ping true sampleRedis = Res.nilPanic ∧
    (sampleRedis.Set "k" sampleValue 0).2 = Res.nilPanic ∧
    (sampleRedis.Get "k").2 = Res.nilPanic ∧
    (sampleRedis.MustGet "k").2 = Res.nilPanic ∧
    (sampleRedis.Delete "k").2 = Res.nilPanic :=
  claim_C10_no_connected_guard sampleRedis "k" sampleValue 0 true rfl

/-- C3: when the handle's configuration record is present and holds the
required `address` field, ApplyFromConfiguration succeeds and marks the
handle configured even though `user_name`, `password` and `database_index`
are all absent: the credential features stay disabled and the database index
stays 0. -/
theorem claim_C3_optional_fields (cfgs : List (String × DXConfiguration))
    (r : DXRedis) (sec : DXConfiguration) (rec : JObject) (a : String)
    (h0 : r.IsConfigured = false)
    (h1 : cfglookup cfgs "redis" = some sec)
    (h2 : jlookup sec.Data r.NameId = some (JValue.jobj rec))
    (h3 : jlookup rec "address" = some (JValue.jstr a))
    (h4 : jlookup rec "user_name" = none)
    (h5 : jlookup rec "password" = none)
    (h6 : jlookup rec "database_index" = none) :
    r.ApplyFromConfiguration cfgs =
      ({ r with
          Address := a
          UserName := ""
          HasUserName := false
          Password := ""
          HasPassword := false
          DatabaseIndex := 0
          IsConfigured := true },
        Res.ok,
        [Ev.readField r.NameId, Ev.readField "address", Ev.readField "user_name",
          Ev.readField "password", Ev.readField "database_index"]) := by
  simp [DXRedis.ApplyFromConfiguration, h0, h1, h2, h3, h4, h5, h6,
    asJSON, asString, json2GetInt]

/-- Witness for C3 at a concrete registry whose record holds only
`address`. -/
theorem claim_C3_witness :
    sampleRedis.ApplyFromConfiguration sampleCfgs =
      ({ sampleRedis with
          Address := "localhost:6379"
          UserName := ""
          HasUserName := false
          Password := ""
          HasPassword := false
          DatabaseIndex := 0
          IsConfigured := true },
        Res.ok,
        [Ev.readField sampleRedis.NameId, Ev.readField "address", Ev.readField "user_name",
          Ev.readField "password", Ev.readField "database_index"]) :=
  claim_C3_optional_fields sampleCfgs sampleRedis sampleSection sampleRecord
    "localhost:6379" rfl rfl (by decide) (by decide) (by decide) (by decide) (by decide)

/-- C4: when the `address` field is absent from the handle's configuration
record, ApplyFromConfiguration takes the fatal (process-terminating) path if
`MustConnected` is true and returns a recoverable error if it is false; in
both cases `IsConfigured` stays false (the handle remains unconfigured; the
failed Go type assertion zeroes `Address`). -/
theorem claim_C4_missing_address (cfgs : List (String × DXConfiguration))
    (r : DXRedis) (sec : DXConfiguration) (rec : JObject)
    (h0 : r.IsConfigured = false)
    (h1 : cfglookup cfgs "redis" = some sec)
    (h2 : jlookup sec.Data r.NameId = some (JValue.jobj rec))
    (h3 : jlookup rec "address" = none) :
    (r.MustConnected = true →
      r.ApplyFromConfiguration cfgs =
        ({ r with Address := "" },
          Res.fatal ("Mandatory address field in Redis " ++ r.NameId ++
            " configuration not exist"),
          [Ev.readField r.NameId, Ev.readField "address"])) ∧
    (r.MustConnected = false →
      r.ApplyFromConfiguration cfgs =
        ({ r with Address := "" },
          Res.errRes ("configuration is unusable, mandatory address field in Redis "
            ++ r.NameId ++ " configuration not exist"),
          [Ev.readField r.NameId, Ev.readField "address"])) ∧
    (r.ApplyFromConfiguration cfgs).1.IsConfigured = false := by
  refine ⟨fun hm => ?_, fun hm => ?_, ?_⟩
  · simp [DXRedis.ApplyFromConfiguration, h0, h1, h2, h3, hm, asJSON, asString]
  · simp [DXRedis.ApplyFromConfiguration, h0, h1, h2, h3, hm, asJSON, asString]
  · cases hm : r.MustConnected <;>
      simp [DXRedis.ApplyFromConfiguration, h0, h1, h2, h3, hm, asJSON, asString]

/-- A configuration record lacking the required `address` field. -/
def sampleRecordNoAddr : JObject := .ocons "user_name" (.jstr "alice") .onil

/-- A `redis` section whose record for `main` lacks `address`. -/
def sampleSectionNoAddr : DXConfiguration :=
  { Data := .ocons "main" (.jobj sampleRecordNoAddr) .onil }

/-- A registry whose `redis` section record for `main` lacks `address`. -/
def sampleCfgsNoAddr : List (String × DXConfiguration) :=
  [("redis", sampleSectionNoAddr)]

/-- A must-connected variant of the sample handle. -/
def sampleRedisMust : DXRedis := { sampleRedis with MustConnected := true }

/-- Witness for C4: both policy variants at a concrete record lacking
`address`. -/
theorem claim_C4_witness :
    sampleRedisMust.ApplyFromConfiguration sampleCfgsNoAddr =
      ({ sampleRedisMust with Address := "" },
        Res.fatal ("Mandatory address field in Redis " ++ sampleRedisMust.NameId ++
          " configuration not exist"),
        [Ev.readField sampleRedisMust.NameId, Ev.readField "address"]) ∧
    sampleRedis.ApplyFromConfiguration sampleCfgsNoAddr =
      ({ sampleRedis with Address := "" },
        Res.errRes ("configuration is unusable, mandatory address field in Redis "
          ++ sampleRedis.NameId ++ " configuration not exist"),
        [Ev.readField sampleRedis.NameId, Ev.readField "address"]) :=
  ⟨(claim_C4_missing_address sampleCfgsNoAddr sampleRedisMust
      sampleSectionNoAddr sampleRecordNoAddr
      rfl rfl (by decide) (by decide)).1 rfl,
    (claim_C4_missing_address sampleCfgsNoAddr sampleRedis
      sampleSectionNoAddr sampleRecordNoAddr
      rfl rfl (by decide) (by decide)).2.1 rfl⟩

/-- C9: on a connected handle a successful Set of a structured value under a
key followed by a Get of the same key returns the value unchanged: Set
serializes to bytes, Get deserializes, and the composition is the identity
on structured values. -/
theorem claim_C9_set_get_roundtrip (r : DXRedis) (c : RedisConn) (key : String)
    (value : JObject) (expirationDuration : Nat)
    (_hc : r.Connected = true) (hcon : r.Connection = some c) :
    r.Set key value expirationDuration =
      (some { c with store := storeInsert c.store key (marshal value) }, Res.ok) ∧
    DXRedis.Get
      { r with Connection := some { c with store := storeInsert c.store key (marshal value) } }
      key = (some value, Res.ok) := by
  constructor
  · simp [DXRedis.Set, hcon]
  · simp [DXRedis.Get, storeLookup, storeInsert, unmarshalJSON_marshal]

/-- The sample connection after a successful Set of `sampleValue` under
key `k`. -/
def sampleConnAfterSet : RedisConn :=
  { sampleConn with store := storeInsert sampleConn.store "k" (marshal sampleValue) }

/-- Witness for C9 at a concrete connected handle and nested structured
value. -/
theorem claim_C9_witness :
    sampleConnected.Set "k" sampleValue 0 = (some sampleConnAfterSet, Res.ok) ∧
    DXRedis.Get { sampleConnected with Connection := some sampleConnAfterSet } "k"
      = (some sampleValue, Res.ok) :=
  claim_C9_set_get_roundtrip sampleConnected sampleConn "k" sampleValue 0 rfl rfl

/-- C1 (amended): when the named configuration section is absent from the
registry, the Redis manager's LoadFromConfiguration fails with a
CONFIGURATION_NOT_FOUND error and registers no handles, while the
SQL-database manager's LoadFromConfiguration — which performs no presence
check — dereferences the missing (nil) configuration, a runtime panic
rather than a ConfigurationNotFound error, likewise registering no
handles. -/
theorem claim_C1_amended (cfgs : List (String × DXConfiguration)) (name : String)
    (rs : DXRedisManager) (dm : DXDatabaseManager)
    (h : cfglookup cfgs name = none) :
    DXRedisManager.LoadFromConfiguration cfgs rs name =
      (rs, Res.errRes ("CONFIGURATION_NOT_FOUND:" ++ name)) ∧
    DXDatabaseManager.LoadFromConfiguration cfgs dm name = (dm, Res.nilPanic) := by
  simp [DXRedisManager.LoadFromConfiguration,
    DXDatabaseManager.LoadFromConfiguration, h]

/-- C1 counterexample: at the empty registry the SQL-database manager's
LoadFromConfiguration ends in a nil-pointer dereference (runtime panic) with
no handle registered — not the ConfigurationNotFound error return the claim
asserts for both families. -/
theorem claim_C1_counterexample :
    DXDatabaseManager.LoadFromConfiguration [] ⟨[]⟩ "main" =
      (⟨[]⟩, Res.nilPanic) ∧
    Res.nilPanic ≠ Res.errRes ("CONFIGURATION_NOT_FOUND:" ++ "main") :=
  ⟨rfl, by decide⟩

/-- Witness for C1 (amended) at the empty registry and section name
`main`. -/
theorem claim_C1_witness :
    DXRedisManager.LoadFromConfiguration [] ⟨[]⟩ "main" =
      (⟨[]⟩, Res.errRes ("CONFIGURATION_NOT_FOUND:" ++ "main")) ∧
    DXDatabaseManager.LoadFromConfiguration [] ⟨[]⟩ "main" =
      (⟨[]⟩, Res.nilPanic) :=
  claim_C1_amended [] "main" ⟨[]⟩ ⟨[]⟩ rfl

/-- The trace of `DXRedis.ApplyFromConfiguration` records only field reads:
it never contains a manager-level connect marker. -/
theorem redisApply_trace_connectEv_free (cfgs : List (String × DXConfiguration))
    (r : DXRedis) (n : String) :
    Ev.connectEv n ∉ (r.ApplyFromConfiguration cfgs).2.2 := by
  unfold DXRedis.ApplyFromConfiguration
  by_cases hc : r.IsConfigured
  · simp [hc]
  · simp only [hc, if_false]
    cases hcf : cfglookup cfgs "redis" with
    | none => simp
    | some sec =>
      cases hj : (jlookup sec.Data r.NameId).bind asJSON with
      | none => by_cases hm : r.MustConnected <;> simp [hj, hm]
      | some rec =>
        cases ha : (jlookup rec "address").bind asString with
        | none => by_cases hm : r.MustConnected <;> simp [hj, ha, hm]
        | some a =>
          cases hg : (json2GetInt rec "database_index").2 with
          | none => simp [hj, ha, hg]
          | some m => by_cases hm : r.MustConnected <;> simp [hj, ha, hg, hm]

/-- The trace of `DXRedis.Connect` consists of configuration reads, a build
and a ping: it never contains a manager-level connect marker. -/
theorem redisConnect_trace_connectEv_free (cfgs : List (String × DXConfiguration))
    (pingOk : Bool) (extStore : List (String × List JTok)) (r : DXRedis)
    (n : String) :
    Ev.connectEv n ∉ (r.Connect cfgs pingOk extStore).2.2 := by
  unfold DXRedis.Connect
  by_cases hc : r.Connected
  · simp [hc]
  · simp only [hc, if_false]
    have hap := redisApply_trace_connectEv_free cfgs r n
    rcases hq : r.ApplyFromConfiguration cfgs with ⟨r1, res, evs⟩
    rw [hq] at hap
    simp only [Prod.snd] at hap
    cases res with
    | ok =>
      by_cases hp : pingOk <;> by_cases hm : r1.MustConnected <;>
        simp [hp, hm, List.mem_append] <;> exact hap
    | errRes m => simpa using hap
    | fatal m => simpa using hap
    | nilPanic => simpa using hap

/-- When every handle has `IsConnectAtStart` false, the Redis
ConnectAllAtStart loop touches nothing: no configuration is applied, no
connection attempted, no event emitted. -/
theorem redisLoop_all_off (cfgs : List (String × DXConfiguration))
    (pingOk : Bool) (extStore : List (String × List JTok)) :
    ∀ hs : List DXRedis, (∀ r, r ∈ hs → r.IsConnectAtStart = false) →
      DXRedisManager.ConnectAllAtStartLoop cfgs pingOk extStore hs =
        (hs, Res.ok, []) := by
  intro hs
  induction hs with
  | nil => intro _; simp [DXRedisManager.ConnectAllAtStartLoop]
  | cons r tl ih =>
    intro hall
    have hr : r.IsConnectAtStart = false := hall r (by simp)
    have htl := ih (fun x hx => hall x (by simp [hx]))
    simp [DXRedisManager.ConnectAllAtStartLoop, hr, htl]

/-- A connect marker in the Redis ConnectAllAtStart trace always names a
handle of the registry whose `IsConnectAtStart` flag is true. -/
theorem redisLoop_connectEv_flagged (cfgs : List (String × DXConfiguration))
    (pingOk : Bool) (extStore : List (String × List JTok)) :
    ∀ (hs : List DXRedis) (n : String),
      Ev.connectEv n ∈ (DXRedisManager.ConnectAllAtStartLoop cfgs pingOk extStore hs).2.2 →
      ∃ r, r ∈ hs ∧ r.NameId = n ∧ r.IsConnectAtStart = true := by
  intro hs
  induction hs with
  | nil =>
    intro n h
    simp [DXRedisManager.ConnectAllAtStartLoop] at h
  | cons r tl ih =>
    intro n h
    by_cases hf : r.IsConnectAtStart
    · have hnc := redisConnect_trace_connectEv_free cfgs pingOk extStore r n
      rcases hq : r.Connect cfgs pingOk extStore with ⟨r1, cres, cevs⟩
      rw [hq] at hnc
      simp only [Prod.snd] at hnc
      rw [DXRedisManager.ConnectAllAtStartLoop] at h
      cases cres with
      | ok =>
        simp only [hf, if_true, hq] at h
        rcases List.mem_append.mp h with h | h
        · rcases List.mem_cons.mp h with h | h
          · have hn : n = r.NameId := by simpa using h
            exact ⟨r, by simp, hn.symm, hf⟩
          · exact absurd h hnc
        · rcases ih n h with ⟨x, hx, hxn, hxf⟩
          exact ⟨x, by simp [hx], hxn, hxf⟩
      | errRes m =>
        simp only [hf, if_true, hq] at h
        rcases List.mem_cons.mp h with h | h
        · have hn : n = r.NameId := by simpa using h
          exact ⟨r, by simp, hn.symm, hf⟩
        · exact absurd h hnc
      | fatal m =>
        simp only [hf, if_true, hq] at h
        rcases List.mem_cons.mp h with h | h
        · have hn : n = r.NameId := by simpa using h
          exact ⟨r, by simp, hn.symm, hf⟩
        · exact absurd h hnc
      | nilPanic =>
        simp only [hf, if_true, hq] at h
        rcases List.mem_cons.mp h with h | h
        · have hn : n = r.NameId := by simpa using h
          exact ⟨r, by simp, hn.symm, hf⟩
        · exact absurd h hnc
    · rw [DXRedisManager.ConnectAllAtStartLoop] at h
      simp only [hf, if_false] at h
      rcases ih n h with ⟨x, hx, hxn, hxf⟩
      exact ⟨x, by simp [hx], hxn, hxf⟩

/-- `DXDatabase.ApplyFromConfiguration` never changes the handle's name or
its connect-at-start policy flag. -/
theorem dbApply_preserves (cfgs : List (String × DXConfiguration))
    (configurationNameId : String) (d : DXDatabase) :
    (d.ApplyFromConfiguration cfgs configurationNameId).1.NameId = d.NameId ∧
    (d.ApplyFromConfiguration cfgs configurationNameId).1.IsConnectAtStart = d.IsConnectAtStart := by
  unfold DXDatabase.ApplyFromConfiguration
  by_cases hc : d.IsConfigured
  · simp [hc]
  · simp only [hc, if_false]
    cases hcf : cfglookup cfgs configurationNameId with
    | none => simp
    | some c =>
      cases hj : (jlookup c.Data d.NameId).bind asJSON with
      | none => by_cases hm : d.MustConnected <;> simp [hj, hm]
      | some rec =>
        cases ha : (jlookup rec "address").bind asString with
        | none => by_cases hm : d.MustConnected <;> simp [hj, ha, hm]
        | some a => simp [hj, ha]

/-- When the database ConnectAllAtStart loop succeeds, every handle of the
registry has had ApplyFromConfiguration invoked on it (its apply marker is
in the trace), and every handle flagged connect-at-start has also had
Connect invoked on it. -/
theorem dbLoop_applies_all (cfgs : List (String × DXConfiguration))
    (configurationNameId : String) (pingOk : Bool) :
    ∀ hs : List DXDatabase,
      (DXDatabaseManager.ConnectAllAtStartLoop cfgs configurationNameId pingOk hs).2.1 = Res.ok →
      ∀ d, d ∈ hs →
        Ev.applyEv d.NameId ∈
          (DXDatabaseManager.ConnectAllAtStartLoop cfgs configurationNameId pingOk hs).2.2 ∧
        (d.IsConnectAtStart = true →
          Ev.connectEv d.NameId ∈
            (DXDatabaseManager.ConnectAllAtStartLoop cfgs configurationNameId pingOk hs).2.2) := by
  intro hs
  induction hs with
  | nil =>
    intro _ d hd
    simp at hd
  | cons d0 tl ih =>
    intro hok d hd
    have hpres := dbApply_preserves cfgs configurationNameId d0
    rcases hq : d0.ApplyFromConfiguration cfgs configurationNameId with ⟨d1, ares⟩
    rw [hq] at hpres
    simp only [Prod.fst] at hpres
    rw [DXDatabaseManager.ConnectAllAtStartLoop] at hok ⊢
    cases ares with
    | ok =>
      by_cases hf1 : d1.IsConnectAtStart
      · rcases hcq : d1.Connect cfgs configurationNameId pingOk with ⟨d2, cres⟩
        cases cres with
        | ok =>
          simp only [hq, hf1, if_true, hcq] at hok ⊢
          rcases List.mem_cons.mp hd with hd | hd
          · subst hd
            constructor
            · simp
            · intro _; simp
          · rcases ih hok d hd with ⟨ha2, hc2⟩
            exact ⟨by simp [ha2], fun hfd => by simp [hc2 hfd]⟩
        | errRes m => simp [hq, hf1, hcq] at hok
        | fatal m => simp [hq, hf1, hcq] at hok
        | nilPanic => simp [hq, hf1, hcq] at hok
      · simp only [hq, hf1, if_false] at hok ⊢
        rcases List.mem_cons.mp hd with hd | hd
        · subst hd
          constructor
          · simp
          · intro hfd
            rw [hpres.2] at hf1
            exact absurd hfd hf1
        · rcases ih hok d hd with ⟨ha2, hc2⟩
          exact ⟨by simp [ha2], fun hfd => by simp [hc2 hfd]⟩
    | errRes m => simp [hq] at hok
    | fatal m => simp [hq] at hok
    | nilPanic => simp [hq] at hok

/-- A connect marker in the database ConnectAllAtStart trace always names a
handle of the registry whose `IsConnectAtStart` flag is true. -/
theorem dbLoop_connectEv_flagged (cfgs : List (String × DXConfiguration))
    (configurationNameId : String) (pingOk : Bool) :
    ∀ (hs : List DXDatabase) (n : String),
      Ev.connectEv n ∈
        (DXDatabaseManager.ConnectAllAtStartLoop cfgs configurationNameId pingOk hs).2.2 →
      ∃ d, d ∈ hs ∧ d.NameId = n ∧ d.IsConnectAtStart = true := by
  intro hs
  induction hs with
  | nil =>
    intro n h
    simp [DXDatabaseManager.ConnectAllAtStartLoop] at h
  | cons d0 tl ih =>
    intro n h
    have hpres := dbApply_preserves cfgs configurationNameId d0
    rcases hq : d0.ApplyFromConfiguration cfgs configurationNameId with ⟨d1, ares⟩
    rw [hq] at hpres
    simp only [Prod.fst] at hpres
    rw [DXDatabaseManager.ConnectAllAtStartLoop] at h
    cases ares with
    | ok =>
      by_cases hf1 : d1.IsConnectAtStart
      · have hf0 : d0.IsConnectAtStart = true := by rw [← hpres.2]; exact hf1
        rcases hcq : d1.Connect cfgs configurationNameId pingOk with ⟨d2, cres⟩
        cases cres with
        | ok =>
          simp only [hq, hf1, if_true, hcq] at h
          rcases List.mem_cons.mp h with h | h
          · simp at h
          · rcases List.mem_cons.mp h with h | h
            · have hn : n = d0.NameId := by simpa using h
              exact ⟨d0, by simp, hn.symm, hf0⟩
            · rcases ih n h with ⟨x, hx, hxn, hxf⟩
              exact ⟨x, by simp [hx], hxn, hxf⟩
        | errRes m =>
          simp only [hq, hf1, if_true, hcq] at h
          rcases List.mem_cons.mp h with h | h
          · simp at h
          · rcases List.mem_cons.mp h with h | h
            · have hn : n = d0.NameId := by simpa using h
              exact ⟨d0, by simp, hn.symm, hf0⟩
            · simp at h
        | fatal m =>
          simp only [hq, hf1, if_true, hcq] at h
          rcases List.mem_cons.mp h with h | h
          · simp at h
          · rcases List.mem_cons.mp h with h | h
            · have hn : n = d0.NameId := by simpa using h
              exact ⟨d0, by simp, hn.symm, hf0⟩
            · simp at h
        | nilPanic =>
          simp only [hq, hf1, if_true, hcq] at h
          rcases List.mem_cons.mp h with h | h
          · simp at h
          · rcases List.mem_cons.mp h with h | h
            · have hn : n = d0.NameId := by simpa using h
              exact ⟨d0, by simp, hn.symm, hf0⟩
            · simp at h
      · simp only [hq, hf1, if_false] at h
        rcases List.mem_cons.mp h with h | h
        · simp at h
        · rcases ih n h with ⟨x, hx, hxn, hxf⟩
          exact ⟨x, by simp [hx], hxn, hxf⟩
    | errRes m =>
      simp only [hq] at h
      rcases List.mem_cons.mp h with h | h
      · simp at h
      · simp at h
    | fatal m =>
      simp only [hq] at h
      rcases List.mem_cons.mp h with h | h
      · simp at h
      · simp at h
    | nilPanic =>
      simp only [hq] at h
      rcases List.mem_cons.mp h with h | h
      · simp at h
      · simp at h

/-- A connect-at-start variant of the sample Redis handle. -/
def sampleRedisOn : DXRedis := { sampleRedis with IsConnectAtStart := true }

/-- A connect-at-start variant of the sample database handle. -/
def sampleDbOn : DXDatabase := { sampleDb with IsConnectAtStart := true }

/-- C2 counterexample: a non-empty Redis registry holding one unconfigured
handle with `IsConnectAtStart` false and a valid configuration record:
ConnectAllAtStart returns the registry unchanged with an empty trace — the
handle stays unconfigured even though ApplyFromConfiguration on it would
succeed and configure it, so ApplyFromConfiguration is NOT invoked on every
registered handle in the Redis family. -/
theorem claim_C2_counterexample :
    DXRedisManager.ConnectAllAtStart sampleCfgs true [] ⟨[sampleRedis]⟩ =
      (⟨[sampleRedis]⟩, Res.ok, []) ∧
    sampleRedis.IsConfigured = false ∧
    (sampleRedis.ApplyFromConfiguration sampleCfgs).2.1 = Res.ok ∧
    (sampleRedis.ApplyFromConfiguration sampleCfgs).1.IsConfigured = true :=
  ⟨by decide, rfl, by decide, by decide⟩

/-- C2 (amended): in both families ConnectAllAtStart invokes Connect exactly
on the handles whose `isConnectAtStart` flag is true; the SQL-database
family additionally invokes ApplyFromConfiguration on every registered
handle first (when no step fails), but the Redis family does not — handles
whose flag is false are skipped entirely there, configuration being applied
only inside Connect for the flagged handles. -/
theorem claim_C2_amended :
    (∀ (cfgs : List (String × DXConfiguration)) (pingOk : Bool)
        (extStore : List (String × List JTok)) (rs : DXRedisManager),
      (∀ r, r ∈ rs.Redises → r.IsConnectAtStart = false) →
      DXRedisManager.ConnectAllAtStart cfgs pingOk extStore rs = (rs, Res.ok, [])) ∧
    (∀ (cfgs : List (String × DXConfiguration)) (pingOk : Bool)
        (extStore : List (String × List JTok)) (rs : DXRedisManager) (n : String),
      Ev.connectEv n ∈ (DXRedisManager.ConnectAllAtStart cfgs pingOk extStore rs).2.2 →
      ∃ r, r ∈ rs.Redises ∧ r.NameId = n ∧ r.IsConnectAtStart = true) ∧
    (∀ (cfgs : List (String × DXConfiguration)) (configurationNameId : String)
        (pingOk : Bool) (dm : DXDatabaseManager),
      (DXDatabaseManager.ConnectAllAtStart cfgs configurationNameId pingOk dm).2.1 = Res.ok →
      ∀ d, d ∈ dm.Databases →
        Ev.applyEv d.NameId ∈
          (DXDatabaseManager.ConnectAllAtStart cfgs configurationNameId pingOk dm).2.2 ∧
        (d.IsConnectAtStart = true →
          Ev.connectEv d.NameId ∈
            (DXDatabaseManager.ConnectAllAtStart cfgs configurationNameId pingOk dm).2.2)) ∧
    (∀ (cfgs : List (String × DXConfiguration)) (configurationNameId : String)
        (pingOk : Bool) (dm : DXDatabaseManager) (n : String),
      Ev.connectEv n ∈
        (DXDatabaseManager.ConnectAllAtStart cfgs configurationNameId pingOk dm).2.2 →
      ∃ d, d ∈ dm.Databases ∧ d.NameId = n ∧ d.IsConnectAtStart = true) := by
  refine ⟨?_, ?_, ?_, ?_⟩
  · intro cfgs pingOk ext rs hall
    cases rs with
    | mk hs =>
      simp only [DXRedisManager.ConnectAllAtStart]
      rw [redisLoop_all_off cfgs pingOk ext hs hall]
  · intro cfgs pingOk ext rs n h
    exact redisLoop_connectEv_flagged cfgs pingOk ext rs.Redises n
      (by simpa [DXRedisManager.ConnectAllAtStart] using h)
  · intro cfgs name pingOk dm hok d hd
    have hall := dbLoop_applies_all cfgs name pingOk dm.Databases
      (by simpa [DXDatabaseManager.ConnectAllAtStart] using hok) d hd
    simpa [DXDatabaseManager.ConnectAllAtStart] using hall
  · intro cfgs name pingOk dm n h
    exact dbLoop_connectEv_flagged cfgs name pingOk dm.Databases n
      (by simpa [DXDatabaseManager.ConnectAllAtStart] using h)

/-- Witness for C2 (amended): concrete one-handle registries for each of the
four parts. -/
theorem claim_C2_witness :
    (DXRedisManager.ConnectAllAtStart sampleCfgs true [] ⟨[sampleRedis]⟩ =
      (⟨[sampleRedis]⟩, Res.ok, [])) ∧
    (∃ r, r ∈ (⟨[sampleRedisOn]⟩ : DXRedisManager).Redises ∧
      r.NameId = "main" ∧ r.IsConnectAtStart = true) ∧
    (Ev.applyEv sampleDb.NameId ∈
        (DXDatabaseManager.ConnectAllAtStart sampleCfgs "redis" true ⟨[sampleDb]⟩).2.2 ∧
      (sampleDb.IsConnectAtStart = true →
        Ev.connectEv sampleDb.NameId ∈
          (DXDatabaseManager.ConnectAllAtStart sampleCfgs "redis" true ⟨[sampleDb]⟩).2.2)) ∧
    (∃ d, d ∈ (⟨[sampleDbOn]⟩ : DXDatabaseManager).Databases ∧
      d.NameId = "main" ∧ d.IsConnectAtStart = true) := by
  refine ⟨?_, ?_, ?_, ?_⟩
  · exact claim_C2_amended.1 sampleCfgs true [] ⟨[sampleRedis]⟩
      (fun r hr => by simp at hr; subst hr; rfl)
  · exact claim_C2_amended.2.1 sampleCfgs true [] ⟨[sampleRedisOn]⟩ "main" (by decide)
  · exact claim_C2_amended.2.2.1 sampleCfgs "redis" true ⟨[sampleDb]⟩ (by decide)
      sampleDb (by simp)
  · exact claim_C2_amended.2.2.2 sampleCfgs "redis" true ⟨[sampleDbOn]⟩ "main" (by decide)
